import Mathlib

/-!
Shallow embedding of `melitools.py` (MercadoLibre data-collection script).

The script has four functions:
  * `get_category_country_list` — paginated fetch of search results per country;
  * `single_df` — builds one tabular row from one JSON record;
  * `basic_df` — assembles rows for a list of records into one table;
  * `calculate_discount_metrics` — adds USD-normalised price/discount columns.

JSON values are modelled by the inductive `JValue`; a pandas DataFrame row is
an ordered association list of column name / value pairs, and a table is a
list of rows.  Fallible Python code (KeyError, AttributeError, TypeError,
ZeroDivisionError, unbound local) is modelled with `Option`: `none` is a
raised exception.  Python numbers are modelled by `ℚ`.
-/

/-- JSON value tree, as handled (duck-typed) by the script. -/
inductive JValue where
  | null
  | str (s : String)
  | num (q : ℚ)
  | bool (b : Bool)
  | arr (xs : List JValue)
  | obj (fields : List (String × JValue))

/-- Python `d[k]` / `d.get(k)` on a JSON object: first binding of key `k`;
`none` when the key is absent or the value is not an object. -/
def jget (v : JValue) (k : String) : Option JValue :=
  match v with
  | JValue.obj fields => (fields.find? (fun p => p.1 == k)).map Prod.snd
  | _ => none

/-- jmespath dotted-path search (`jmespath.search('.'.join(path), v)`): follows
each key in order and yields JSON null as soon as a step is missing or the
current value is not an object.  Tolerant: it never raises. -/
def jsearch : List String → JValue → JValue
  | [], v => v
  | k :: ks, v =>
    match jget v k with
    | some w => jsearch ks w
    | none => JValue.null

/-- A feature selector of `single_df`: a plain string (direct key lookup) or a
tuple of path segments (nested jmespath lookup). -/
inductive Feature where
  | direct (name : String)
  | nested (path : List String)
deriving DecidableEq

/-- Column name produced for a feature: the string itself for a direct
selector, the underscore-join of the segments for a tuple selector. -/
def colName : Feature → String
  | Feature.direct n => n
  | Feature.nested p => String.intercalate "_" p

/-- One DataFrame row: ordered list of (column name, value) pairs. -/
abbrev Row := List (String × JValue)

/-- A DataFrame: list of rows. -/
abbrev Table := List Row

/-- Reading column `c` of a row (`row.c` / `df[c]`): `none` models the
AttributeError / KeyError raised when the column does not exist. -/
def rowLookup (row : Row) (c : String) : Option JValue :=
  (row.find? (fun p => p.1 == c)).map Prod.snd

/-- pandas column assignment `df[c] = v`: overwrites the column in place when
it already exists (column names are unique in a DataFrame, so replacing the
first binding suffices), otherwise appends it on the right. -/
def setCol (row : Row) (c : String) (v : JValue) : Row :=
  match row with
  | [] => [(c, v)]
  | p :: r => if p.1 == c then (c, v) :: r else p :: setCol r c v

/-- Effect of `setCol` on the column-name list: unchanged when the name is
already present, appended otherwise. -/
def namesAfter (ns : List String) (c : String) : List String :=
  if c ∈ ns then ns else ns ++ [c]

/-- Default feature list of `single_df` (used when `features` is falsy). -/
def default_features : List Feature :=
  [Feature.direct "site_id", Feature.direct "price", Feature.direct "currency_id",
   Feature.direct "available_quantity", Feature.direct "sold_quantity",
   Feature.direct "buying_mode", Feature.direct "listing_type_id",
   Feature.direct "condition", Feature.direct "accepts_mercadopago",
   Feature.direct "original_price",
   Feature.nested ["seller", "seller_reputation", "level_id"],
   Feature.nested ["shipping", "free_shipping"],
   Feature.nested ["address", "state_name"]]

/-- Default attribute list of `single_df` (used when `attributes` is falsy). -/
def default_attributes : List String := ["BRAND", "MODEL"]

/-- Python `if not features:` — `None` and the empty list both select the
default feature list. -/
def resolveFeatures : Option (List Feature) → List Feature
  | none => default_features
  | some [] => default_features
  | some (f :: fs) => f :: fs

/-- Python `if not attributes:` — `None` and the empty list both select the
default attribute list. -/
def resolveAttributes : Option (List String) → List String
  | none => default_attributes
  | some [] => default_attributes
  | some (a :: as') => a :: as'

/-- jmespath filter predicate `[?id=='attribute_id']` on one attribute entry:
true iff the entry is an object whose `id` field is exactly that string. -/
def attrMatches (attribute_id : String) (a : JValue) : Bool :=
  match jget a "id" with
  | some (JValue.str s) => s == attribute_id
  | _ => false

/-- jmespath projection step `.value_name` on one attribute entry: the field's
value, or JSON null when absent. -/
def projValueName (a : JValue) : JValue :=
  (jget a "value_name").getD JValue.null

/-- Test for JSON null. -/
def isNullJ : JValue → Bool
  | JValue.null => true
  | _ => false

/-- Model of `get_specific_attribute(attribute_id, result)`: the jmespath query
`attributes[?id=='attribute_id'].value_name | [0]`.  The filter keeps the
entries whose `id` equals the given id; the projection maps each to its
`value_name`, omitting null results (jmespath projections drop nulls); `[0]`
takes the first remaining value, or null when there is none or `attributes`
is not a list. -/
def get_specific_attribute (attribute_id : String) (result : JValue) : JValue :=
  match jget result "attributes" with
  | some (JValue.arr xs) =>
    (((xs.filter (attrMatches attribute_id)).map projValueName).filter
      (fun v => !(isNullJ v))).headD JValue.null
  | _ => JValue.null

/-- One feature-assignment step of `single_df`'s loop: a tuple selector
assigns the tolerant jmespath result under the underscore-joined name; a
plain selector assigns `result[feature]`, whose failure (KeyError on a
missing key, TypeError on a non-object) is `none`. -/
def applyFeature (result : JValue) (row : Row) (f : Feature) : Option Row :=
  match f with
  | Feature.direct n => (jget result n).map (fun v => setCol row n v)
  | Feature.nested p => some (setCol row (String.intercalate "_" p) (jsearch p result))

/-- The feature loop of `single_df`, threading the row being built;
stops with `none` at the first failing direct lookup. -/
def buildFeatures (result : JValue) : Row → List Feature → Option Row
  | row, [] => some row
  | row, f :: fs =>
    match applyFeature result row f with
    | none => none
    | some row2 => buildFeatures result row2 fs

/-- The attribute loop of `single_df`: each attribute id becomes a column
holding `get_specific_attribute` of the record (never fails). -/
def buildAttributes (result : JValue) (row : Row) (ats : List String) : Row :=
  ats.foldl (fun r a => setCol r a (get_specific_attribute a result)) row

/-- Model of `single_df(result, features, attributes)`: builds one row, starting from
the empty row, assigning every feature column then every attribute column.
`none` models the exception raised by a failing direct lookup. -/
def single_df (result : JValue) (features : Option (List Feature))
    (attributes : Option (List String)) : Option Row :=
  match buildFeatures result [] (resolveFeatures features) with
  | none => none
  | some row => some (buildAttributes result row (resolveAttributes attributes))

/-- Tail of `basic_df`'s loop after the first row: each further record's row
is appended with `pd.concat([df, single_df(...)], ignore_index=True)`. -/
def basicAux (features : Option (List Feature)) (attributes : Option (List String)) :
    List JValue → Table → Option Table
  | [], acc => some acc
  | r :: rs, acc =>
    match single_df r features attributes with
    | none => none
    | some row => basicAux features attributes rs (acc ++ [row])

/-- Model of `basic_df(results, features, attributes)`: the `start` flag means the
first record initialises `df` and later records are concatenated.  For an
empty `results` the loop body never runs, so the local `df` is unbound and
`return df` raises UnboundLocalError — modelled as `none`. -/
def basic_df (results : List JValue) (features : Option (List Feature))
    (attributes : Option (List String)) : Option Table :=
  match results with
  | [] => none
  | r :: rs =>
    match single_df r features attributes with
    | none => none
    | some row => basicAux features attributes rs [row]

/-- Column names of the row built by `single_df` for given selector lists:
fold of `namesAfter` over all assigned column names, starting empty. -/
def rowColumns (fs : List Feature) (ats : List String) : List String :=
  (fs.map colName ++ ats).foldl namesAfter []

/-- mapOpt f xs: applies `f` to every element, failing as soon as one
application fails (models a loop / pandas `apply` that raises). -/
def mapOpt {α β : Type} (f : α → Option β) : List α → Option (List β)
  | [] => some []
  | x :: xs =>
    match f x with
    | none => none
    | some y =>
      match mapOpt f xs with
      | none => none
      | some ys => some (y :: ys)

/-- Currency-code-to-USD-rate mapping (`mapper_currency`), passed explicitly:
in the script it is a module-level global fetched once at startup. -/
abbrev RateMap := List (String × ℚ)

/-- Python dict lookup `mapper_currency[c]`: `none` models the KeyError on a
missing code. -/
def lookupRate (m : RateMap) (c : String) : Option ℚ :=
  (m.find? (fun p => p.1 == c)).map Prod.snd

/-- Numeric view of a JSON value; `none` models the TypeError raised by
arithmetic on a non-number. -/
def asNum : JValue → Option ℚ
  | JValue.num q => some q
  | _ => none

/-- Python `row.discount == 1`: true only for the JSON number 1 (any other
value, of any type, compares unequal without raising). -/
def eqNumOne : JValue → Bool
  | JValue.num q => q == 1
  | _ => false

/-- One row of `row.X/mapper_currency[row.currency_id] if row.currency_id !=
'USD' else row.X` where X is the column `col`.  Reading a missing column is an
AttributeError (`none`); a non-`"USD"` currency value must be a string present
in the map (else KeyError) and the dividend a number (else TypeError);
division by a zero rate is a ZeroDivisionError. -/
def colOverRate (m : RateMap) (row : Row) (col : String) : Option JValue :=
  match rowLookup row "currency_id", rowLookup row col with
  | some (JValue.str s), some v =>
    if s == "USD" then some v
    else
      match lookupRate m s, asNum v with
      | some r, some q => if r == 0 then none else some (JValue.num (q / r))
      | _, _ => none
  | some _, some _ => none
  | _, _ => none

/-- Per-row effect of `df['discount'] = 1` followed by
`df.loc[df.original_price.isna(), 'discount'] = 0`: 0 when `original_price`
is null, 1 otherwise; AttributeError when the column is missing. -/
def discountValue (row : Row) : Option JValue :=
  match rowLookup row "original_price" with
  | none => none
  | some v => some (if isNullJ v then JValue.num 0 else JValue.num 1)

/-- One row of `row.original_price - row.price if row.discount == 1 else 0`:
when the flag is the number 1 both operands must exist and be numbers;
otherwise the value is 0 without touching the operands. -/
def descuentoPrecio (row : Row) : Option JValue :=
  match rowLookup row "discount" with
  | none => none
  | some d =>
    if eqNumOne d then
      match rowLookup row "original_price", rowLookup row "price" with
      | some op, some p =>
        match asNum op, asNum p with
        | some oq, some pq => some (JValue.num (oq - pq))
        | _, _ => none
      | _, _ => none
    else some (JValue.num 0)

/-- Column assignment over one row: compute the value, then set the column. -/
def setColM (col : String) (f : Row → Option JValue) (row : Row) : Option Row :=
  match f row with
  | none => none
  | some v => some (setCol row col v)

/-- Model of `calculate_discount_metrics(df)` with the rate map as a parameter: the
four column assignments of the script, in their order — `price_USD`,
`discount`, `descuento_precio`, `descuento_USD`.  Each `df.apply(..., axis=1)`
maps the whole table and raises (`none`) as soon as one row fails. -/
def calculate_discount_metrics (m : RateMap) (df : Table) : Option Table :=
  match mapOpt (setColM "price_USD" (fun r => colOverRate m r "price")) df with
  | none => none
  | some df1 =>
    match mapOpt (setColM "discount" discountValue) df1 with
    | none => none
    | some df2 =>
      match mapOpt (setColM "descuento_precio" descuentoPrecio) df2 with
      | none => none
      | some df3 =>
        mapOpt (setColM "descuento_USD" (fun r => colOverRate m r "descuento_precio")) df3

/-- One page of the search endpoint, per the upstream interface: a `results`
list and an optional `error` field. -/
structure PageResponse where
  results : List JValue
  error : Option String

/-- The marketplace search endpoint as a function of the site (country) code,
the category key (`country_id + category`) and the offset. -/
abbrev Api := String → String → Nat → PageResponse

/-- One diagnostic line of `get_category_country_list`: the category key
(`country_id + category`), the offset, and the error payload. -/
abbrev Diag := String × Nat × String

/-- Inner page loop of `get_category_country_list` for one country, starting
at page index `i` with `n` page indices left (`for i in range(limit)`).
Offset is `50 * i`.  The loop breaks on the first page whose result list is
empty, or — checked second — on an error field, printing the diagnostic;
otherwise the page's result list is appended. -/
def fetchPages (api : Api) (country key : String) : Nat → Nat → List (List JValue) × List Diag
  | _, 0 => ([], [])
  | i, n + 1 =>
    let r := api country key (50 * i)
    if r.results.length = 0 then ([], [])
    else
      match r.error with
      | some e => ([], [(key, 50 * i, e)])
      | none =>
        let rest := fetchPages api country key (i + 1) n
        (r.results :: rest.1, rest.2)

/-- Model of `get_category_country_list(countries, category, limit)` over an abstract
endpoint: outer loop over the countries, inner page loop per country, then
one final flatten of all collected page lists.  Second component: the printed
diagnostics, in order. -/
def get_category_country_list (api : Api) (countries : List String)
    (category : String) (limit : Nat) : List JValue × List Diag :=
  let per := countries.map (fun c => fetchPages api c (c ++ category) 0 limit)
  (((per.map Prod.fst).flatten).flatten, (per.map Prod.snd).flatten)

/-! ## Helper lemmas about rows, columns and option-valued maps -/

lemma rowLookup_setCol_self (r : Row) (c : String) (v : JValue) :
    rowLookup (setCol r c v) c = some v := by
  induction r with
  | nil => simp [setCol, rowLookup, List.find?_cons]
  | cons p r ih =>
    cases hp : (p.1 == c) with
    | true => simp [setCol, hp, rowLookup, List.find?_cons]
    | false =>
      simp only [setCol, hp, Bool.false_eq_true, if_false]
      simpa [rowLookup, List.find?_cons, hp] using ih

lemma rowLookup_setCol_ne (r : Row) (c c' : String) (v : JValue) (h : c' ≠ c) :
    rowLookup (setCol r c v) c' = rowLookup r c' := by
  have hcc : (c == c') = false := by
    simp only [beq_eq_false_iff_ne, ne_eq]
    exact fun he => h he.symm
  induction r with
  | nil => simp [setCol, rowLookup, List.find?_cons, hcc]
  | cons p r ih =>
    cases hp : (p.1 == c) with
    | true =>
      have hpc : p.1 = c := by simpa using hp
      simp [setCol, hp, rowLookup, List.find?_cons, hcc, hpc]
    | false =>
      cases hp' : (p.1 == c') with
      | true => simp [setCol, hp, rowLookup, List.find?_cons, hp']
      | false =>
        simp only [setCol, hp, Bool.false_eq_true, if_false]
        simpa [rowLookup, List.find?_cons, hp'] using ih

lemma setCol_fst (r : Row) (c : String) (v : JValue) :
    (setCol r c v).map Prod.fst = namesAfter (r.map Prod.fst) c := by
  induction r with
  | nil => simp [setCol, namesAfter]
  | cons p r ih =>
    cases hp : (p.1 == c) with
    | true =>
      have hpc : p.1 = c := by simpa using hp
      simp [setCol, hp, namesAfter, hpc]
    | false =>
      have hpc : ¬ c = p.1 := by
        intro he
        simp [he.symm] at hp
      by_cases hm : c ∈ r.map Prod.fst
      · simp [setCol, hp, namesAfter, hpc, hm, ih]
      · simp [setCol, hp, namesAfter, hpc, hm, ih]

lemma mapOpt_length {α β : Type} (f : α → Option β) :
    ∀ xs ys, mapOpt f xs = some ys → ys.length = xs.length := by
  intro xs
  induction xs with
  | nil => intro ys h; simp [mapOpt] at h; simp [← h]
  | cons x xs ih =>
    intro ys h
    simp only [mapOpt] at h
    cases hx : f x with
    | none => rw [hx] at h; exact absurd h (by simp)
    | some y =>
      rw [hx] at h
      cases hxs : mapOpt f xs with
      | none => rw [hxs] at h; exact absurd h (by simp)
      | some ys' =>
        rw [hxs] at h
        simp only [Option.some.injEq] at h
        subst h
        simp [ih ys' hxs]

lemma mapOpt_get {α β : Type} (f : α → Option β) :
    ∀ xs ys, mapOpt f xs = some ys →
      ∀ i (hi : i < xs.length) (hi' : i < ys.length),
        f (xs.get ⟨i, hi⟩) = some (ys.get ⟨i, hi'⟩) := by
  intro xs
  induction xs with
  | nil => intro ys h i hi; exact absurd hi (by simp)
  | cons x xs ih =>
    intro ys h i hi hi'
    simp only [mapOpt] at h
    cases hx : f x with
    | none => rw [hx] at h; exact absurd h (by simp)
    | some y =>
      rw [hx] at h
      cases hxs : mapOpt f xs with
      | none => rw [hxs] at h; exact absurd h (by simp)
      | some ys' =>
        rw [hxs] at h
        simp only [Option.some.injEq] at h
        subst h
        cases i with
        | zero => simpa using hx
        | succ j =>
          simp only [List.length_cons, Nat.succ_lt_succ_iff] at hi hi'
          simpa using ih ys' hxs j hi (by simpa using hi')

lemma mapOpt_mem {α β : Type} (f : α → Option β) :
    ∀ xs ys, mapOpt f xs = some ys → ∀ y ∈ ys, ∃ x ∈ xs, f x = some y := by
  intro xs
  induction xs with
  | nil =>
    intro ys h y hy
    simp [mapOpt] at h
    subst h
    exact absurd hy (by simp)
  | cons x xs ih =>
    intro ys h y hy
    simp only [mapOpt] at h
    cases hx : f x with
    | none => rw [hx] at h; exact absurd h (by simp)
    | some y0 =>
      rw [hx] at h
      cases hxs : mapOpt f xs with
      | none => rw [hxs] at h; exact absurd h (by simp)
      | some ys' =>
        rw [hxs] at h
        simp only [Option.some.injEq] at h
        subst h
        rcases List.mem_cons.mp hy with he | hm
        · exact ⟨x, by simp, he ▸ hx⟩
        · rcases ih ys' hxs y hm with ⟨x', hx', hfx'⟩
          exact ⟨x', by simp [hx'], hfx'⟩

lemma mapOpt_none {α β : Type} (f : α → Option β) :
    ∀ xs x, x ∈ xs → f x = none → mapOpt f xs = none := by
  intro xs
  induction xs with
  | nil => intro x hx; exact absurd hx (by simp)
  | cons x0 xs ih =>
    intro x hx hfx
    rcases List.mem_cons.mp hx with he | hm
    · subst he
      simp [mapOpt, hfx]
    · simp only [mapOpt]
      cases hx0 : f x0 with
      | none => rfl
      | some y => rw [ih x hm hfx]

lemma jsearch_null (ks : List String) : jsearch ks JValue.null = JValue.null := by
  cases ks with
  | nil => rfl
  | cons k ks => simp [jsearch, jget]

lemma jsearch_append (xs ys : List String) (v : JValue) :
    jsearch (xs ++ ys) v = jsearch ys (jsearch xs v) := by
  induction xs generalizing v with
  | nil => rfl
  | cons k xs ih =>
    simp only [List.cons_append, jsearch]
    cases jget v k with
    | none => simp [jsearch_null]
    | some w => simp [ih]

lemma jsearch_missing (pre post : List String) (k : String) (v : JValue)
    (h : jget (jsearch pre v) k = none) :
    jsearch (pre ++ k :: post) v = JValue.null := by
  rw [jsearch_append]
  simp [jsearch, h]

lemma buildFeatures_append (result : JValue) (row : Row) (fs gs : List Feature) :
    buildFeatures result row (fs ++ gs) =
      match buildFeatures result row fs with
      | none => none
      | some row2 => buildFeatures result row2 gs := by
  induction fs generalizing row with
  | nil => simp [buildFeatures]
  | cons f fs ih =>
    simp only [List.cons_append, buildFeatures]
    cases applyFeature result row f with
    | none => rfl
    | some row2 => exact ih row2

lemma buildFeatures_fst (result : JValue) :
    ∀ fs row row', buildFeatures result row fs = some row' →
      row'.map Prod.fst = (fs.map colName).foldl namesAfter (row.map Prod.fst) := by
  intro fs
  induction fs with
  | nil => intro row row' h; simp [buildFeatures] at h; simp [← h]
  | cons f fs ih =>
    intro row row' h
    simp only [buildFeatures] at h
    cases hf : applyFeature result row f with
    | none => rw [hf] at h; exact absurd h (by simp)
    | some row2 =>
      rw [hf] at h
      have h2 : row2.map Prod.fst = namesAfter (row.map Prod.fst) (colName f) := by
        cases f with
        | direct n =>
          simp only [applyFeature] at hf
          cases hg : jget result n with
          | none => rw [hg] at hf; exact absurd hf (by simp)
          | some v =>
            rw [hg] at hf
            simp only [Option.map_some', Option.some.injEq] at hf
            subst hf
            simp [setCol_fst, colName]
        | nested p =>
          simp only [applyFeature, Option.some.injEq] at hf
          subst hf
          simp [setCol_fst, colName]
      rw [ih row2 row' h, h2]
      simp [List.foldl_cons]

lemma buildAttributes_fst (result : JValue) :
    ∀ ats row, (buildAttributes result row ats).map Prod.fst =
      ats.foldl namesAfter (row.map Prod.fst) := by
  intro ats
  induction ats with
  | nil => intro row; simp [buildAttributes]
  | cons a ats ih =>
    intro row
    simp only [buildAttributes, List.foldl_cons]
    have := ih (setCol row a (get_specific_attribute a result))
    simp only [buildAttributes] at this
    rw [this, setCol_fst]

/-- Columns of any successfully extracted row depend only on the selector
lists, never on the record. -/
lemma single_df_fst (result : JValue) (features : Option (List Feature))
    (attributes : Option (List String)) (row : Row)
    (h : single_df result features attributes = some row) :
    row.map Prod.fst = rowColumns (resolveFeatures features) (resolveAttributes attributes) := by
  simp only [single_df] at h
  cases hb : buildFeatures result [] (resolveFeatures features) with
  | none => rw [hb] at h; exact absurd h (by simp)
  | some row1 =>
    rw [hb] at h
    simp only [Option.some.injEq] at h
    subst h
    rw [buildAttributes_fst, buildFeatures_fst result _ _ _ hb]
    simp [rowColumns, List.foldl_append]

lemma basicAux_eq (features : Option (List Feature)) (attributes : Option (List String)) :
    ∀ rs acc, basicAux features attributes rs acc =
      Option.map (fun rows => acc ++ rows)
        (mapOpt (fun r => single_df r features attributes) rs) := by
  intro rs
  induction rs with
  | nil => intro acc; simp [basicAux, mapOpt]
  | cons r rs ih =>
    intro acc
    simp only [basicAux, mapOpt]
    cases single_df r features attributes with
    | none => rfl
    | some row =>
      dsimp only
      rw [ih (acc ++ [row])]
      cases mapOpt (fun r => single_df r features attributes) rs with
      | none => rfl
      | some rows => simp

/-- The `start`-flag loop of `basic_df` over a non-empty record list is the
row-by-row option-valued map. -/
lemma basic_df_cons (r : JValue) (rs : List JValue) (features : Option (List Feature))
    (attributes : Option (List String)) :
    basic_df (r :: rs) features attributes =
      mapOpt (fun x => single_df x features attributes) (r :: rs) := by
  simp only [basic_df, mapOpt]
  cases single_df r features attributes with
  | none => rfl
  | some row =>
    dsimp only
    rw [basicAux_eq]
    cases mapOpt (fun x => single_df x features attributes) rs with
    | none => rfl
    | some rows => simp

lemma resolveFeatures_append_single (fs : List Feature) (f : Feature) :
    resolveFeatures (some (fs ++ [f])) = fs ++ [f] := by
  cases fs <;> rfl

/-! ## Claim theorems -/

/-- C1: the claim says `basic_df` returns a valid zero-row table, carrying the
requested columns, on an empty record sequence.  In the code the loop body
never runs for `results == []`, so the local `df` is never bound and
`return df` raises UnboundLocalError: for every selector arguments the call
fails and returns no table at all (modelled as `none`). -/
theorem C1_empty_records (features : Option (List Feature))
    (attributes : Option (List String)) :
    basic_df [] features attributes = none := rfl

/-- C4 counterexample: the claim quantifies over every non-empty record
sequence, but on the non-empty sequence `[{}]` with the default selectors the
direct lookup `result["site_id"]` raises KeyError, so `basic_df` produces no
table at all — in particular no table with one row. -/
theorem C4_counterexample : basic_df [JValue.obj []] none none = none := rfl

/-- C4 (amended with: on which every record's extraction succeeds): for every
non-empty record sequence on which `basic_df` succeeds, the table has one row
per record, every row carries the same column list (determined by the
selector lists alone), and row `i` is exactly the row `single_df` extracts
from record `i` — row order follows input record order. -/
theorem C4_shape_and_order (results : List JValue) (features : Option (List Feature))
    (attributes : Option (List String)) (t : Table)
    (hne : results ≠ [])
    (h : basic_df results features attributes = some t) :
    t.length = results.length ∧
    (∀ row ∈ t, row.map Prod.fst =
      rowColumns (resolveFeatures features) (resolveAttributes attributes)) ∧
    (∀ i (hi : i < results.length) (hi' : i < t.length),
      single_df (results.get ⟨i, hi⟩) features attributes = some (t.get ⟨i, hi'⟩)) := by
  cases results with
  | nil => exact absurd rfl hne
  | cons r rs =>
    rw [basic_df_cons] at h
    refine ⟨mapOpt_length _ _ _ h, ?_, ?_⟩
    · intro row hrow
      rcases mapOpt_mem _ _ _ h row hrow with ⟨x, _, hx⟩
      exact single_df_fst x features attributes row hx
    · intro i hi hi'
      exact mapOpt_get _ _ _ h i hi hi'

/-- C4 witness: two records with a `price` field, custom selectors; the
assembled table has two rows, common columns `price`, `BRAND`, in input
order. -/
theorem C4_witness :
    ([[("price", JValue.num 3), ("BRAND", JValue.null)],
      [("price", JValue.num 4), ("BRAND", JValue.null)]] : Table).length =
      ([JValue.obj [("price", JValue.num 3)], JValue.obj [("price", JValue.num 4)]] : List JValue).length ∧
    (∀ row ∈ ([[("price", JValue.num 3), ("BRAND", JValue.null)],
      [("price", JValue.num 4), ("BRAND", JValue.null)]] : Table), row.map Prod.fst =
      rowColumns (resolveFeatures (some [Feature.direct "price"]))
        (resolveAttributes (some ["BRAND"]))) ∧
    (∀ i (hi : i < ([JValue.obj [("price", JValue.num 3)],
        JValue.obj [("price", JValue.num 4)]] : List JValue).length)
      (hi' : i < ([[("price", JValue.num 3), ("BRAND", JValue.null)],
        [("price", JValue.num 4), ("BRAND", JValue.null)]] : Table).length),
      single_df (([JValue.obj [("price", JValue.num 3)],
        JValue.obj [("price", JValue.num 4)]] : List JValue).get ⟨i, hi⟩)
        (some [Feature.direct "price"]) (some ["BRAND"]) =
        some (([[("price", JValue.num 3), ("BRAND", JValue.null)],
          [("price", JValue.num 4), ("BRAND", JValue.null)]] : Table).get ⟨i, hi'⟩)) :=
  C4_shape_and_order
    [JValue.obj [("price", JValue.num 3)], JValue.obj [("price", JValue.num 4)]]
    (some [Feature.direct "price"]) (some ["BRAND"])
    [[("price", JValue.num 3), ("BRAND", JValue.null)],
     [("price", JValue.num 4), ("BRAND", JValue.null)]]
    (by simp) rfl

/-- C5: a tuple (nested) selector is resolved by the tolerant jmespath query
under the underscore-joined column name: whenever some step `k` of the path
is missing at the point it is looked up, extraction does not fail and the
column resolves to JSON null.  (The side condition keeps the nested column
name distinct from the one attribute column used alongside it.) -/
theorem C5_nested_missing_is_null (result : JValue) (pre post : List String) (k : String)
    (hmiss : jget (jsearch pre result) k = none)
    (hname : String.intercalate "_" (pre ++ k :: post) ≠ "BRAND") :
    ∃ row, single_df result (some [Feature.nested (pre ++ k :: post)]) (some ["BRAND"]) =
        some row ∧
      rowLookup row (String.intercalate "_" (pre ++ k :: post)) = some JValue.null := by
  refine ⟨_, rfl, ?_⟩
  have hnull := jsearch_missing pre post k result hmiss
  simp only [single_df, resolveFeatures, buildFeatures, applyFeature, resolveAttributes,
    buildAttributes, List.foldl_cons, List.foldl_nil, hnull]
  rw [rowLookup_setCol_ne _ _ _ _ hname]
  simp [setCol, rowLookup, List.find?_cons]

/-- C5 witness: the selector `("seller","seller_reputation","level_id")` on a
record lacking `seller` entirely resolves to null rather than failing. -/
theorem C5_witness :
    ∃ row, single_df (JValue.obj [("price", JValue.num 10)])
        (some [Feature.nested ["seller", "seller_reputation", "level_id"]])
        (some ["BRAND"]) = some row ∧
      rowLookup row "seller_seller_reputation_level_id" = some JValue.null :=
  C5_nested_missing_is_null (JValue.obj [("price", JValue.num 10)]) []
    ["seller_reputation", "level_id"] "seller" rfl (by decide)

/-- C6: a direct (non-tuple) selector whose field is absent from the record is
a hard failure: `result[feature]` raises, `single_df` produces no row, and the
error propagates through `basic_df` to the caller — any assembly whose input
contains such a record fails as a whole. -/
theorem C6_direct_missing_fails (result : JValue) (n : String) (fs : List Feature)
    (attributes : Option (List String)) (more : List JValue)
    (hmiss : jget result n = none) :
    single_df result (some (fs ++ [Feature.direct n])) attributes = none ∧
    basic_df (result :: more) (some (fs ++ [Feature.direct n])) attributes = none := by
  have h1 : single_df result (some (fs ++ [Feature.direct n])) attributes = none := by
    simp only [single_df, resolveFeatures_append_single, buildFeatures_append]
    cases buildFeatures result [] fs with
    | none => rfl
    | some row2 => simp [buildFeatures, applyFeature, hmiss]
  exact ⟨h1, by simp only [basic_df, h1]⟩

/-- C6 witness: the empty record with the direct selector `price`. -/
theorem C6_witness :
    single_df (JValue.obj []) (some [Feature.direct "price"]) (some ["BRAND"]) = none ∧
    basic_df [JValue.obj []] (some [Feature.direct "price"]) (some ["BRAND"]) = none :=
  C6_direct_missing_fails (JValue.obj []) "price" [] (some ["BRAND"]) [] rfl

/-- C7 counterexample: the claim says the query returns the `value_name` of
the *first* entry whose id matches (null when that field is absent).  On an
attribute list whose first `MODEL` entry has no `value_name`, the jmespath
projection omits that null and `[0]` picks the second matching entry's value:
the code returns `"X200"` where the claim predicts null. -/
theorem C7_counterexample :
    get_specific_attribute "MODEL" (JValue.obj [("attributes", JValue.arr
      [JValue.obj [("id", JValue.str "MODEL")],
       JValue.obj [("id", JValue.str "MODEL"), ("value_name", JValue.str "X200")]])]) =
      JValue.str "X200" ∧
    jget (JValue.obj [("id", JValue.str "MODEL")]) "value_name" = none :=
  ⟨rfl, rfl⟩

/-- C7 (amended: the projection skips matching entries whose `value_name` is
absent or null): for every attribute identifier and record,
`get_specific_attribute` returns null whenever every matching entry of the
attribute list projects a null `value_name` — which covers both "no entry
matches" (in particular id `MODEL` against `[{id: BRAND, value_name: Acme}]`)
and "matching entries exist but none carries a value_name" — and returns `v`
when some matching entry carries the present, non-null `value_name` `v` and
every earlier entry either does not match or projects a null `value_name`:
the first present, non-null `value_name` among the matching entries. -/
theorem C7_attribute_query (attribute_id : String) (result : JValue) (xs : List JValue)
    (hattr : jget result "attributes" = some (JValue.arr xs)) :
    ((∀ a ∈ xs, attrMatches attribute_id a = true → isNullJ (projValueName a) = true) →
      get_specific_attribute attribute_id result = JValue.null) ∧
    (∀ pre a post v, xs = pre ++ a :: post →
      (∀ b ∈ pre, attrMatches attribute_id b = true → isNullJ (projValueName b) = true) →
      attrMatches attribute_id a = true →
      jget a "value_name" = some v →
      isNullJ v = false →
      get_specific_attribute attribute_id result = v) := by
  have key : ∀ l : List JValue,
      (∀ b ∈ l, attrMatches attribute_id b = true → isNullJ (projValueName b) = true) →
      ((l.filter (attrMatches attribute_id)).map projValueName).filter
        (fun v => !(isNullJ v)) = [] := by
    intro l hl
    rw [List.filter_eq_nil_iff]
    intro v hv
    rcases List.mem_map.mp hv with ⟨b, hb, he⟩
    rcases List.mem_filter.mp hb with ⟨hbl, hbm⟩
    subst he
    simp [hl b hbl hbm]
  constructor
  · intro hnone
    simp only [get_specific_attribute, hattr]
    rw [key xs hnone]
    rfl
  · intro pre a post v hxs hpre hmatch hv hnn
    subst hxs
    simp only [get_specific_attribute, hattr]
    rw [List.filter_append, List.filter_cons_of_pos (by simpa using hmatch),
        List.map_append, List.map_cons, List.filter_append, key pre hpre]
    have hpa : projValueName a = v := by simp [projValueName, hv]
    rw [hpa, List.filter_cons_of_pos (by simp [hnn])]
    rfl

/-- C7 witness: attribute list `[{id: BRAND, value_name: Acme}]` queried for
attribute id `MODEL` yields null (no entry matches, so vacuously every
matching entry projects null). -/
theorem C7_witness :
    get_specific_attribute "MODEL" (JValue.obj [("attributes", JValue.arr
      [JValue.obj [("id", JValue.str "BRAND"), ("value_name", JValue.str "Acme")]])]) =
      JValue.null :=
  (C7_attribute_query "MODEL"
    (JValue.obj [("attributes", JValue.arr
      [JValue.obj [("id", JValue.str "BRAND"), ("value_name", JValue.str "Acme")]])])
    [JValue.obj [("id", JValue.str "BRAND"), ("value_name", JValue.str "Acme")]] rfl).1
    (by
      intro a ha hm
      rw [List.mem_singleton] at ha
      subst ha
      exact absurd hm (by decide))

lemma setColM_eq (col : String) (f : Row → Option JValue) (row r' : Row)
    (h : setColM col f row = some r') :
    ∃ v, f row = some v ∧ r' = setCol row col v := by
  simp only [setColM] at h
  cases hf : f row with
  | none => rw [hf] at h; exact absurd h (by simp)
  | some v =>
    rw [hf] at h
    simp only [Option.some.injEq] at h
    exact ⟨v, rfl, h.symm⟩

/-- Every row of a successful enrichment is its source row with the four
derived columns assigned in the script's order. -/
lemma calculate_structure (m : RateMap) (df out : Table)
    (h : calculate_discount_metrics m df = some out) (row : Row) (hrow : row ∈ out) :
    ∃ r0, r0 ∈ df ∧ ∃ v1 d v3 v4,
      colOverRate m r0 "price" = some v1 ∧
      discountValue (setCol r0 "price_USD" v1) = some d ∧
      descuentoPrecio (setCol (setCol r0 "price_USD" v1) "discount" d) = some v3 ∧
      colOverRate m (setCol (setCol (setCol r0 "price_USD" v1) "discount" d)
        "descuento_precio" v3) "descuento_precio" = some v4 ∧
      row = setCol (setCol (setCol (setCol r0 "price_USD" v1) "discount" d)
        "descuento_precio" v3) "descuento_USD" v4 := by
  simp only [calculate_discount_metrics] at h
  cases h1 : mapOpt (setColM "price_USD" (fun r => colOverRate m r "price")) df with
  | none => rw [h1] at h; exact absurd h (by simp)
  | some df1 =>
    rw [h1] at h
    dsimp only at h
    cases h2 : mapOpt (setColM "discount" discountValue) df1 with
    | none => rw [h2] at h; exact absurd h (by simp)
    | some df2 =>
      rw [h2] at h
      dsimp only at h
      cases h3 : mapOpt (setColM "descuento_precio" descuentoPrecio) df2 with
      | none => rw [h3] at h; exact absurd h (by simp)
      | some df3 =>
        rw [h3] at h
        dsimp only at h
        obtain ⟨r3, hr3, hs4⟩ := mapOpt_mem _ _ _ h row hrow
        obtain ⟨v4, hv4, hrw⟩ := setColM_eq _ _ _ _ hs4
        obtain ⟨r2, hr2, hs3⟩ := mapOpt_mem _ _ _ h3 r3 hr3
        obtain ⟨v3, hv3, hr3e⟩ := setColM_eq _ _ _ _ hs3
        obtain ⟨r1, hr1, hs2⟩ := mapOpt_mem _ _ _ h2 r2 hr2
        obtain ⟨d, hd, hr2e⟩ := setColM_eq _ _ _ _ hs2
        obtain ⟨r0, hr0, hs1⟩ := mapOpt_mem _ _ _ h1 r1 hr1
        obtain ⟨v1, hv1, hr1e⟩ := setColM_eq _ _ _ _ hs1
        subst hrw
        subst hr3e
        subst hr2e
        subst hr1e
        exact ⟨r0, hr0, v1, d, v3, v4, hv1, hd, hv3, hv4, rfl⟩

lemma isNullJ_false_iff (v : JValue) : isNullJ v = false ↔ v ≠ JValue.null := by
  cases v <;> simp [isNullJ]

/-- C8: in every row of a successfully enriched table, the `discount` flag is
the number 1 exactly when the row's `original_price` is present and non-null,
and whenever the flag is 0 both `descuento_precio` and `descuento_USD` are
the number 0. -/
theorem C8_discount_flag (m : RateMap) (df out : Table)
    (h : calculate_discount_metrics m df = some out) (row : Row) (hrow : row ∈ out) :
    (rowLookup row "discount" = some (JValue.num 1) ↔
      ∃ v, rowLookup row "original_price" = some v ∧ v ≠ JValue.null) ∧
    (rowLookup row "discount" = some (JValue.num 0) →
      rowLookup row "descuento_precio" = some (JValue.num 0) ∧
      rowLookup row "descuento_USD" = some (JValue.num 0)) := by
  obtain ⟨r0, hr0, v1, d, v3, v4, hv1, hd, hv3, hv4, hrw⟩ :=
    calculate_structure m df out h row hrow
  subst hrw
  set r1 := setCol r0 "price_USD" v1 with hr1def
  set r2 := setCol r1 "discount" d with hr2def
  set r3 := setCol r2 "descuento_precio" v3 with hr3def
  have hdisc : rowLookup (setCol r3 "descuento_USD" v4) "discount" = some d := by
    rw [rowLookup_setCol_ne _ _ _ _ (by decide), hr3def,
        rowLookup_setCol_ne _ _ _ _ (by decide), hr2def, rowLookup_setCol_self]
  have hop0 : rowLookup (setCol r3 "descuento_USD" v4) "original_price" =
      rowLookup r1 "original_price" := by
    rw [rowLookup_setCol_ne _ _ _ _ (by decide), hr3def,
        rowLookup_setCol_ne _ _ _ _ (by decide), hr2def,
        rowLookup_setCol_ne _ _ _ _ (by decide)]
  obtain ⟨op, hop1, hdval⟩ : ∃ op, rowLookup r1 "original_price" = some op ∧
      d = (if isNullJ op then JValue.num 0 else JValue.num 1) := by
    simp only [discountValue] at hd
    cases hol : rowLookup r1 "original_price" with
    | none => rw [hol] at hd; exact absurd hd (by simp)
    | some op =>
      rw [hol] at hd
      simp only [Option.some.injEq] at hd
      exact ⟨op, rfl, hd.symm⟩
  constructor
  · rw [hdisc, hop0, hop1]
    cases hnull : isNullJ op with
    | true =>
      have hopn : op = JValue.null := by
        cases op <;> simp [isNullJ] at hnull ⊢
      subst hopn
      rw [hnull] at hdval
      simp only [if_true] at hdval
      subst hdval
      constructor
      · intro hco
        have : (0 : ℚ) = 1 := by
          have := Option.some.inj hco
          exact JValue.num.inj this
        norm_num at this
      · rintro ⟨v, hv, hvne⟩
        exact absurd (Option.some.inj hv).symm hvne
    | false =>
      rw [hnull] at hdval
      simp only [Bool.false_eq_true, if_false] at hdval
      subst hdval
      constructor
      · intro _
        exact ⟨op, rfl, (isNullJ_false_iff op).mp hnull⟩
      · intro _
        rfl
  · intro h0
    rw [hdisc] at h0
    have hd0 : d = JValue.num 0 := Option.some.inj h0
    subst hd0
    have hl2 : rowLookup r2 "discount" = some (JValue.num 0) := by
      rw [hr2def, rowLookup_setCol_self]
    simp only [descuentoPrecio, hl2] at hv3
    rw [show eqNumOne (JValue.num 0) = false from by decide] at hv3
    simp only [Bool.false_eq_true, if_false, Option.some.injEq] at hv3
    have hv30 : v3 = JValue.num 0 := hv3.symm
    subst hv30
    have hdp : rowLookup (setCol r3 "descuento_USD" v4) "descuento_precio" =
        some (JValue.num 0) := by
      rw [rowLookup_setCol_ne _ _ _ _ (by decide), hr3def, rowLookup_setCol_self]
    have hl3 : rowLookup r3 "descuento_precio" = some (JValue.num 0) := by
      rw [hr3def, rowLookup_setCol_self]
    have hv40 : v4 = JValue.num 0 := by
      simp only [colOverRate, hl3] at hv4
      cases hcur : rowLookup r3 "currency_id" with
      | none => rw [hcur] at hv4; exact absurd hv4 (by simp)
      | some cur =>
        rw [hcur] at hv4
        cases cur with
        | str s =>
          dsimp only at hv4
          cases hus : (s == "USD") with
          | true =>
            rw [hus] at hv4
            simp only [if_true] at hv4
            exact (Option.some.inj hv4).symm
          | false =>
            rw [hus] at hv4
            simp only [Bool.false_eq_true, if_false] at hv4
            cases hrate : lookupRate m s with
            | none => rw [hrate] at hv4; exact absurd hv4 (by simp)
            | some r =>
              rw [hrate] at hv4
              simp only [asNum] at hv4
              cases hz : (r == 0) with
              | true => rw [hz] at hv4; exact absurd hv4 (by simp)
              | false =>
                rw [hz] at hv4
                simp only [Bool.false_eq_true, if_false, Option.some.injEq] at hv4
                rw [← hv4, zero_div]
        | null => exact absurd hv4 (by simp)
        | num q => exact absurd hv4 (by simp)
        | bool b => exact absurd hv4 (by simp)
        | arr xs => exact absurd hv4 (by simp)
        | obj fields => exact absurd hv4 (by simp)
    subst hv40
    exact ⟨hdp, by rw [rowLookup_setCol_self]⟩

/-- Input table for the C8 witness: one USD row without an original price. -/
def dfW8 : Table :=
  [[("price", JValue.num 20), ("currency_id", JValue.str "USD"),
    ("original_price", JValue.null)]]

/-- Enriched row of the C8 witness. -/
def rowW8 : Row :=
  [("price", JValue.num 20), ("currency_id", JValue.str "USD"),
   ("original_price", JValue.null), ("price_USD", JValue.num 20),
   ("discount", JValue.num 0), ("descuento_precio", JValue.num 0),
   ("descuento_USD", JValue.num 0)]

/-- C8 witness: a concrete enrichment run with a null `original_price` —
flag 0 and both discount amounts 0. -/
theorem C8_witness :
    (rowLookup rowW8 "discount" = some (JValue.num 1) ↔
      ∃ v, rowLookup rowW8 "original_price" = some v ∧ v ≠ JValue.null) ∧
    (rowLookup rowW8 "discount" = some (JValue.num 0) →
      rowLookup rowW8 "descuento_precio" = some (JValue.num 0) ∧
      rowLookup rowW8 "descuento_USD" = some (JValue.num 0)) :=
  C8_discount_flag [] dfW8 [rowW8] rfl rowW8 (by simp)

/-- C9: a row whose `currency_id` is a string other than `"USD"` and not a
key of the rate map makes its derivation — and hence the whole enrichment
call — a hard failure: the very first derived column's rate lookup raises
KeyError, with no fallback rate and no default of 1. -/
theorem C9_missing_rate (m : RateMap) (df : Table) (row : Row) (c : String)
    (hrow : row ∈ df)
    (hcur : rowLookup row "currency_id" = some (JValue.str c))
    (hne : c ≠ "USD")
    (hmiss : lookupRate m c = none) :
    calculate_discount_metrics m df = none := by
  have hbe : (c == "USD") = false := by
    simp only [beq_eq_false_iff_ne, ne_eq]
    exact hne
  have hcor : colOverRate m row "price" = none := by
    simp only [colOverRate, hcur]
    cases hp : rowLookup row "price" with
    | none => rfl
    | some v =>
      dsimp only
      rw [hbe]
      simp only [Bool.false_eq_true, if_false, hmiss]
  have hfail : setColM "price_USD" (fun r => colOverRate m r "price") row = none := by
    simp only [setColM, hcor]
  simp only [calculate_discount_metrics, mapOpt_none _ df row hrow hfail]

/-- C9 witness: one row in euros with an empty rate map. -/
theorem C9_witness :
    calculate_discount_metrics []
      [[("currency_id", JValue.str "EUR"), ("price", JValue.num 5)]] = none :=
  C9_missing_rate [] [[("currency_id", JValue.str "EUR"), ("price", JValue.num 5)]]
    [("currency_id", JValue.str "EUR"), ("price", JValue.num 5)] "EUR"
    (by simp) rfl (by decide) rfl

/-- C10 counterexample: the claim says every pre-existing column is left
unchanged, but on an input row that already carries a `price_USD` column the
enrichment succeeds and overwrites that column in place (`"keep"` becomes
the number 1), and only three columns are added. -/
theorem C10_counterexample :
    calculate_discount_metrics []
      [[("price_USD", JValue.str "keep"), ("price", JValue.num 1),
        ("currency_id", JValue.str "USD"), ("original_price", JValue.null)]] =
      some [[("price_USD", JValue.num 1), ("price", JValue.num 1),
        ("currency_id", JValue.str "USD"), ("original_price", JValue.null),
        ("discount", JValue.num 0), ("descuento_precio", JValue.num 0),
        ("descuento_USD", JValue.num 0)]] ∧
    JValue.str "keep" ≠ JValue.num 1 :=
  ⟨rfl, fun h => JValue.noConfusion h⟩

/-- C10 (amended: a pre-existing column named like one of the four derived
columns is overwritten in place rather than preserved): a successful
enrichment preserves the row count; in every row every column whose name is
none of `price_USD`, `discount`, `descuento_precio`, `descuento_USD` keeps
its value, and the output column list is the input column list extended, in
order, with whichever derived names were not already present. -/
theorem C10_frame (m : RateMap) (df out : Table)
    (h : calculate_discount_metrics m df = some out) :
    out.length = df.length ∧
    ∀ i (hi : i < df.length) (hi' : i < out.length),
      (∀ c, c ≠ "price_USD" → c ≠ "discount" → c ≠ "descuento_precio" →
        c ≠ "descuento_USD" →
        rowLookup (out.get ⟨i, hi'⟩) c = rowLookup (df.get ⟨i, hi⟩) c) ∧
      (out.get ⟨i, hi'⟩).map Prod.fst =
        namesAfter (namesAfter (namesAfter (namesAfter
          ((df.get ⟨i, hi⟩).map Prod.fst) "price_USD") "discount")
          "descuento_precio") "descuento_USD" := by
  simp only [calculate_discount_metrics] at h
  cases h1 : mapOpt (setColM "price_USD" (fun r => colOverRate m r "price")) df with
  | none => rw [h1] at h; exact absurd h (by simp)
  | some df1 =>
    rw [h1] at h
    dsimp only at h
    cases h2 : mapOpt (setColM "discount" discountValue) df1 with
    | none => rw [h2] at h; exact absurd h (by simp)
    | some df2 =>
      rw [h2] at h
      dsimp only at h
      cases h3 : mapOpt (setColM "descuento_precio" descuentoPrecio) df2 with
      | none => rw [h3] at h; exact absurd h (by simp)
      | some df3 =>
        rw [h3] at h
        dsimp only at h
        have l1 := mapOpt_length _ _ _ h1
        have l2 := mapOpt_length _ _ _ h2
        have l3 := mapOpt_length _ _ _ h3
        have l4 := mapOpt_length _ _ _ h
        refine ⟨by omega, ?_⟩
        intro i hi hi'
        obtain ⟨v1, hv1, e1⟩ := setColM_eq _ _ _ _
          (mapOpt_get _ _ _ h1 i hi (by omega))
        obtain ⟨d, hd, e2⟩ := setColM_eq _ _ _ _
          (mapOpt_get _ _ _ h2 i (by omega) (by omega))
        obtain ⟨v3, hv3, e3⟩ := setColM_eq _ _ _ _
          (mapOpt_get _ _ _ h3 i (by omega) (by omega))
        obtain ⟨v4, hv4, e4⟩ := setColM_eq _ _ _ _
          (mapOpt_get _ _ _ h i (by omega) hi')
        constructor
        · intro c hc1 hc2 hc3 hc4
          rw [e4, rowLookup_setCol_ne _ _ _ _ hc4, e3,
              rowLookup_setCol_ne _ _ _ _ hc3, e2,
              rowLookup_setCol_ne _ _ _ _ hc2, e1,
              rowLookup_setCol_ne _ _ _ _ hc1]
        · rw [e4, setCol_fst, e3, setCol_fst, e2, setCol_fst, e1, setCol_fst]

/-- Input table for the C10 witness. -/
def dfW10 : Table :=
  [[("price", JValue.num 7), ("currency_id", JValue.str "USD"),
    ("original_price", JValue.null)]]

/-- Output table for the C10 witness. -/
def outW10 : Table :=
  [[("price", JValue.num 7), ("currency_id", JValue.str "USD"),
    ("original_price", JValue.null), ("price_USD", JValue.num 7),
    ("discount", JValue.num 0), ("descuento_precio", JValue.num 0),
    ("descuento_USD", JValue.num 0)]]

/-- C10 witness: a concrete successful enrichment keeping every pre-existing
column and appending the four derived ones. -/
theorem C10_witness :
    outW10.length = dfW10.length ∧
    ∀ i (hi : i < dfW10.length) (hi' : i < outW10.length),
      (∀ c, c ≠ "price_USD" → c ≠ "discount" → c ≠ "descuento_precio" →
        c ≠ "descuento_USD" →
        rowLookup (outW10.get ⟨i, hi'⟩) c = rowLookup (dfW10.get ⟨i, hi⟩) c) ∧
      (outW10.get ⟨i, hi'⟩).map Prod.fst =
        namesAfter (namesAfter (namesAfter (namesAfter
          ((dfW10.get ⟨i, hi⟩).map Prod.fst) "price_USD") "discount")
          "descuento_precio") "descuento_USD" :=
  C10_frame [] dfW10 outW10 rfl

lemma gccl_cons (api : Api) (c : String) (cs : List String) (category : String)
    (limit : Nat) :
    get_category_country_list api (c :: cs) category limit =
      ((fetchPages api c (c ++ category) 0 limit).1.flatten ++
        (get_category_country_list api cs category limit).1,
       (fetchPages api c (c ++ category) 0 limit).2 ++
        (get_category_country_list api cs category limit).2) := by
  simp [get_category_country_list, List.flatten_append]

/-- Pagination for one country reaching, after `d` good pages from index `i`,
a page whose result list is empty: the loop stops there, keeps the good
pages, and prints nothing. -/
lemma fetchPages_empty_at (api : Api) (country key : String) :
    ∀ d i n, d < n →
      (∀ j, i ≤ j → j < i + d →
        (api country key (50 * j)).error = none ∧
        (api country key (50 * j)).results.length ≠ 0) →
      (api country key (50 * (i + d))).results.length = 0 →
      fetchPages api country key i n =
        ((List.range' i d).map (fun j => (api country key (50 * j)).results), []) := by
  intro d
  induction d with
  | zero =>
    intro i n hn hgood hempty
    cases n with
    | zero => omega
    | succ n =>
      simp only [fetchPages]
      rw [if_pos (by simpa using hempty)]
      simp [List.range']
  | succ d ih =>
    intro i n hn hgood hempty
    cases n with
    | zero => omega
    | succ n =>
      have hgi := hgood i (Nat.le_refl i) (by omega)
      simp only [fetchPages]
      rw [if_neg hgi.2, hgi.1]
      dsimp only
      have ihr := ih (i + 1) n (by omega)
        (fun j hj1 hj2 => hgood j (by omega) (by omega))
        (by
          have e : i + 1 + d = i + (d + 1) := by omega
          rw [e]
          exact hempty)
      rw [ihr, List.range'_succ i d 1]
      simp

/-- Pagination for one country reaching, after `d` good pages from index `i`,
a page with a non-empty result list whose response signals an error: the loop
stops there, keeps the good pages, drops the error page's results, and prints
one diagnostic naming the category key, the offset and the payload. -/
lemma fetchPages_error_at (api : Api) (country key e : String) :
    ∀ d i n, d < n →
      (∀ j, i ≤ j → j < i + d →
        (api country key (50 * j)).error = none ∧
        (api country key (50 * j)).results.length ≠ 0) →
      (api country key (50 * (i + d))).error = some e →
      (api country key (50 * (i + d))).results.length ≠ 0 →
      fetchPages api country key i n =
        ((List.range' i d).map (fun j => (api country key (50 * j)).results),
         [(key, 50 * (i + d), e)]) := by
  intro d
  induction d with
  | zero =>
    intro i n hn hgood herr hne
    cases n with
    | zero => omega
    | succ n =>
      simp only [fetchPages]
      rw [if_neg (by simpa using hne)]
      rw [show (api country key (50 * i)).error = some e from by simpa using herr]
      simp [List.range']
  | succ d ih =>
    intro i n hn hgood herr hne
    cases n with
    | zero => omega
    | succ n =>
      have hgi := hgood i (Nat.le_refl i) (by omega)
      simp only [fetchPages]
      rw [if_neg hgi.2, hgi.1]
      dsimp only
      have e1 : i + 1 + d = i + (d + 1) := by omega
      have ihr := ih (i + 1) n (by omega)
        (fun j hj1 hj2 => hgood j (by omega) (by omega))
        (by rw [e1]; exact herr)
        (by rw [e1]; exact hne)
      rw [ihr, List.range'_succ i d 1]
      simp [e1]

/-- C3: for every country, pagination halts at the first page whose results
list is empty — without raising and without a diagnostic — keeping exactly
the items of the earlier pages (queried at offset 50·j for page index j, in
page order), and the remaining countries are processed unchanged. -/
theorem C3_halts_on_empty_page (api : Api) (c : String) (rest : List String)
    (category : String) (limit k : Nat)
    (hk : k < limit)
    (hgood : ∀ j, j < k →
      (api c (c ++ category) (50 * j)).error = none ∧
      (api c (c ++ category) (50 * j)).results.length ≠ 0)
    (hempty : (api c (c ++ category) (50 * k)).results.length = 0) :
    get_category_country_list api (c :: rest) category limit =
      (((List.range k).map
          (fun j => (api c (c ++ category) (50 * j)).results)).flatten ++
        (get_category_country_list api rest category limit).1,
       (get_category_country_list api rest category limit).2) := by
  rw [gccl_cons]
  rw [fetchPages_empty_at api c (c ++ category) k 0 limit (by omega)
    (fun j hj1 hj2 => hgood j (by omega)) (by simpa using hempty)]
  rw [List.range_eq_range']
  simp

/-- C3 witness: a mock endpoint returning 2 non-empty pages then an empty
page; with `limit = 5` exactly the two pages' items are collected, in page
order, and no diagnostic is printed. -/
theorem C3_witness :
    get_category_country_list
      (fun _ _ off =>
        if off = 0 then PageResponse.mk [JValue.str "i1", JValue.str "i2"] none
        else if off = 50 then PageResponse.mk [JValue.str "i3"] none
        else PageResponse.mk [] none)
      ["MLA"] "1055" 5 =
      ([JValue.str "i1", JValue.str "i2", JValue.str "i3"], []) := by
  have h := C3_halts_on_empty_page
    (fun _ _ off =>
      if off = 0 then PageResponse.mk [JValue.str "i1", JValue.str "i2"] none
      else if off = 50 then PageResponse.mk [JValue.str "i3"] none
      else PageResponse.mk [] none)
    "MLA" [] "1055" 5 2 (by omega)
    (by
      intro j hj
      interval_cases j
      · exact ⟨rfl, by decide⟩
      · exact ⟨rfl, by decide⟩)
    rfl
  exact h.trans (by rfl)

/-- C2 counterexample: the empty-results check runs before the error check,
so a page response that signals an API-level error but carries an empty
results list stops pagination with NO diagnostic emitted — the claim's
promised diagnostic (key, offset, payload) never appears. -/
theorem C2_counterexample :
    ((fun (_ _ : String) (_ : Nat) => PageResponse.mk [] (some "invalid category") : Api)
        "MLA" "MLA1055" 0).error = some "invalid category" ∧
    get_category_country_list
      (fun _ _ _ => PageResponse.mk [] (some "invalid category")) ["MLA"] "1055" 5 =
      ([], []) :=
  ⟨rfl, rfl⟩

/-- C2 (amended: only when the error page's results list is non-empty; an
error page with an empty results list stops the country silently): at the
first such error page the fetcher prints one diagnostic naming the
country+category key, the offset and the error payload, stops that country's
pagination keeping the earlier pages' items and dropping the error page's,
proceeds to the remaining countries, and the call still returns normally. -/
theorem C2_error_diagnostic (api : Api) (c : String) (rest : List String)
    (category : String) (limit k : Nat) (e : String)
    (hk : k < limit)
    (hgood : ∀ j, j < k →
      (api c (c ++ category) (50 * j)).error = none ∧
      (api c (c ++ category) (50 * j)).results.length ≠ 0)
    (herr : (api c (c ++ category) (50 * k)).error = some e)
    (hne : (api c (c ++ category) (50 * k)).results.length ≠ 0) :
    get_category_country_list api (c :: rest) category limit =
      (((List.range k).map
          (fun j => (api c (c ++ category) (50 * j)).results)).flatten ++
        (get_category_country_list api rest category limit).1,
       (c ++ category, 50 * k, e) ::
        (get_category_country_list api rest category limit).2) := by
  rw [gccl_cons]
  rw [fetchPages_error_at api c (c ++ category) e k 0 limit (by omega)
    (fun j hj1 hj2 => hgood j (by omega)) (by simpa using herr) (by simpa using hne)]
  rw [List.range_eq_range']
  simp

/-- C2 witness: one good page, then an error page with non-empty results —
the run returns the good page's item and the single diagnostic. -/
theorem C2_witness :
    get_category_country_list
      (fun _ _ off =>
        if off = 0 then PageResponse.mk [JValue.str "a"] none
        else PageResponse.mk [JValue.str "b"] (some "boom"))
      ["MLA"] "1055" 5 =
      ([JValue.str "a"], [("MLA1055", 50, "boom")]) := by
  have h := C2_error_diagnostic
    (fun _ _ off =>
      if off = 0 then PageResponse.mk [JValue.str "a"] none
      else PageResponse.mk [JValue.str "b"] (some "boom"))
    "MLA" [] "1055" 5 1 "boom" (by omega)
    (by
      intro j hj
      interval_cases j
      exact ⟨rfl, by decide⟩)
    rfl (by decide)
  exact h.trans (by rfl)
